import Mathlib

/-!
Shallow embedding of the OMS microservices core: the Inventory Ledger
(products-service `InventoryService`) and the Order Aggregate
(orders-service `OrderService`).  Database tables are lists of rows,
`new Date()` timestamps are explicit `Nat` parameters, and DB-thrown
errors are `Except` values (an `Except.error` result models a rolled-back
transaction: no rows mutated, no events published).
-/

namespace OMS

/-- Error taxonomy of `@oms/toolkit`: `NotFoundError(entity, id)` and
`ValidationError(message)`. -/
inductive ServiceError where
  | notFound (entity id : String)
  | validation (message : String)
deriving Repr, DecidableEq

/-- Row of the `inventory` table: on-hand quantity per (product, warehouse). -/
structure InventoryRow where
  productId : String
  warehouseId : String
  quantity : Int
  updatedAt : Nat
deriving Repr, DecidableEq

/-- The `status` column of `inventory_reservations`. -/
inductive ResStatus where
  | pending
  | confirmed
  | released
deriving Repr, DecidableEq

/-- Row of the `inventory_reservations` table. -/
structure ReservationRow where
  orderId : String
  productId : String
  warehouseId : String
  quantity : Int
  status : ResStatus
  updatedAt : Nat
deriving Repr, DecidableEq

/-- The Inventory Ledger's storage: the two tables owned by
`InventoryService`. -/
structure LedgerState where
  inventory : List InventoryRow
  reservations : List ReservationRow
deriving Repr, DecidableEq

/-- Events published by `ProductEventPublisher` during `reserve`. -/
inductive InvEvent where
  | reserved (orderId productId warehouseId : String) (quantity : Int)
  | insufficient (orderId productId warehouseId : String)
      (requestedQuantity availableQuantity : Int) (reason : String)
deriving Repr, DecidableEq

/-- Argument record of `InventoryService.reserve`. -/
structure ReserveInventoryData where
  productId : String
  warehouseId : String
  quantity : Int
  orderId : String
deriving Repr, DecidableEq

/-- Argument record of one entry of `InventoryService.batchUpdate`. -/
structure BatchUpdateData where
  productId : String
  warehouseId : String
  quantity : Int
deriving Repr, DecidableEq

/-- `db.query.inventory.findFirst` filtered on (productId, warehouseId). -/
def findInventory (rows : List InventoryRow) (p w : String) : Option InventoryRow :=
  rows.find? (fun r => r.productId == p && r.warehouseId == w)

/-- The WHERE clause of the pending-reservation sum in `reserve`:
matching product, warehouse, and status `pending`. -/
def isPendingFor (p w : String) (r : ReservationRow) : Bool :=
  r.productId == p && r.warehouseId == w && r.status == ResStatus.pending

/-- `COALESCE(SUM(quantity), 0)` over pending reservations of a
(product, warehouse) pair. -/
def pendingSum (rs : List ReservationRow) (p w : String) : Int :=
  ((rs.filter (isPendingFor p w)).map ReservationRow.quantity).sum

/-- `InventoryService.reserve`: inside one transaction, look up the
inventory row (404 when absent), compute availability net of pending
reservations, then either insert one pending reservation and publish
`inventory.reserved`, or mutate nothing and publish
`inventory.insufficient` with the shortfall. -/
def reserve (st : LedgerState) (data : ReserveInventoryData) (now : Nat) :
    Except ServiceError (LedgerState × List InvEvent) :=
  match findInventory st.inventory data.productId data.warehouseId with
  | none =>
      Except.error (ServiceError.notFound "Inventory"
        (data.productId ++ ":" ++ data.warehouseId))
  | some inventoryRecord =>
      let reservedQuantity := pendingSum st.reservations data.productId data.warehouseId
      let availableQuantity := inventoryRecord.quantity - reservedQuantity
      if availableQuantity < data.quantity then
        Except.ok (st,
          [InvEvent.insufficient data.orderId data.productId data.warehouseId
            data.quantity availableQuantity
            ("Only " ++ toString availableQuantity ++ " units available, but "
              ++ toString data.quantity ++ " requested")])
      else
        Except.ok
          ({ st with reservations := st.reservations ++
              [⟨data.orderId, data.productId, data.warehouseId,
                data.quantity, ResStatus.pending, now⟩] },
           [InvEvent.reserved data.orderId data.productId data.warehouseId data.quantity])

/-- The WHERE clause of `release`: matching order, product, and status
`pending`. -/
def isPendingOrderProduct (o p : String) (r : ReservationRow) : Bool :=
  r.orderId == o && r.productId == p && r.status == ResStatus.pending

/-- The row transformation of `release`'s UPDATE: flip matching pending
rows to `released`, leave every other row untouched. -/
def releaseFlip (o p : String) (now : Nat) (r : ReservationRow) : ReservationRow :=
  if isPendingOrderProduct o p r then
    { r with status := ResStatus.released, updatedAt := now }
  else r

/-- `InventoryService.release`: find all pending reservations for the
(order, product) pair; when none exist return early (a logged no-op),
otherwise flip them all to `released`. -/
def release (st : LedgerState) (o p : String) (now : Nat) : LedgerState :=
  let reservationsToRelease := st.reservations.filter (isPendingOrderProduct o p)
  if reservationsToRelease.length = 0 then st
  else { st with reservations := st.reservations.map (releaseFlip o p now) }

/-- The upsert shared by `update` and each `batchUpdate` entry: overwrite
the quantity of an existing (product, warehouse) row, or insert a fresh
row. -/
def upsertInventory (rows : List InventoryRow) (p w : String) (q : Int) (now : Nat) :
    List InventoryRow :=
  match findInventory rows p w with
  | some _ =>
      rows.map (fun r =>
        if r.productId == p && r.warehouseId == w then
          { r with quantity := q, updatedAt := now }
        else r)
  | none => rows ++ [⟨p, w, q, now⟩]

/-- `InventoryService.update` on the ledger state (direct stock
adjustment). -/
def updateStock (st : LedgerState) (p w : String) (q : Int) (now : Nat) : LedgerState :=
  { st with inventory := upsertInventory st.inventory p w q now }

/-- `InventoryService.batchUpdate`: reject an empty or oversized batch
with a `ValidationError` before touching storage; otherwise upsert every
entry inside one transaction, incrementing the mutation counter on both
the update and the insert branch. -/
def batchUpdate (st : LedgerState) (updates : List BatchUpdateData) (now : Nat) :
    Except ServiceError (Nat × LedgerState) :=
  if updates.length = 0 || updates.length > 1000 then
    Except.error (ServiceError.validation "Batch size must be between 1 and 1000")
  else
    Except.ok (updates.foldl
      (fun acc u => (acc.1 + 1, updateStock acc.2 u.productId u.warehouseId u.quantity now))
      (0, st))

/-- One ledger operation, as dispatched by the service's API routes and
saga consumers. -/
inductive LedgerOp where
  | reserveOp (data : ReserveInventoryData) (now : Nat)
  | releaseOp (orderId productId : String) (now : Nat)
  | updateOp (productId warehouseId : String) (quantity : Int) (now : Nat)
deriving Repr, DecidableEq

/-- Apply one ledger operation; a thrown `NotFoundError` rolls the
transaction back, leaving the state unchanged. -/
def applyOp (st : LedgerState) (op : LedgerOp) : LedgerState :=
  match op with
  | LedgerOp.reserveOp data now =>
      match reserve st data now with
      | Except.ok (st2, _) => st2
      | Except.error _ => st
  | LedgerOp.releaseOp o p now => release st o p now
  | LedgerOp.updateOp p w q now => updateStock st p w q now

/-- Sequential execution of a list of ledger operations. -/
def applyOps (st : LedgerState) (ops : List LedgerOp) : LedgerState :=
  ops.foldl applyOp st

/-- The core safety bound: for every inventory row, the pending
reservation sum for its (product, warehouse) pair does not exceed its
on-hand quantity. -/
def noOversell (st : LedgerState) : Bool :=
  st.inventory.all (fun r =>
    decide (pendingSum st.reservations r.productId r.warehouseId ≤ r.quantity))

/-- Every reservation row carries a nonnegative quantity. -/
def pendingNonneg (st : LedgerState) : Bool :=
  st.reservations.all (fun r => decide (0 ≤ r.quantity))

/-- The (product, warehouse) key is unique across inventory rows — the
table's composite-key constraint. -/
def keysUniqueB : List InventoryRow → Bool
  | [] => true
  | r :: rest =>
      rest.all (fun r2 => !(r2.productId == r.productId && r2.warehouseId == r.warehouseId))
        && keysUniqueB rest

/-- Operations kept by the amended no-oversell claim: reservations of
nonnegative quantity and releases; direct stock updates are excluded. -/
def reserveOrRelease (op : LedgerOp) : Bool :=
  match op with
  | LedgerOp.reserveOp data _ => decide (0 ≤ data.quantity)
  | LedgerOp.releaseOp _ _ _ => true
  | LedgerOp.updateOp _ _ _ _ => false

/-! ## Order Aggregate (orders-service `OrderService`) -/

/-- The `status` enum of the `orders` table. -/
inductive OrderStatus where
  | pending
  | confirmed
  | processing
  | shipped
  | delivered
  | cancelled
  | refunded
deriving Repr, DecidableEq

/-- Row of the `orders` table.  `totalAmount` is modelled as an integer
amount (the source stores a fixed-point decimal string). -/
structure OrderRow where
  id : String
  userId : String
  status : OrderStatus
  totalAmount : Int
  shippingAddress : String
  billingAddress : Option String
  notes : Option String
  paymentId : Option String
  transactionId : Option String
  createdAt : Nat
  updatedAt : Nat
  cancelledAt : Option Nat
deriving Repr, DecidableEq

/-- Row of the `order_items` table. -/
structure OrderItemRow where
  orderId : String
  productId : String
  quantity : Int
  unitPrice : Int
deriving Repr, DecidableEq

/-- Row of the `order_inventory_tracking` table. -/
structure TrackingRow where
  orderId : String
  productId : String
  inventoryReserved : Bool
  updatedAt : Nat
deriving Repr, DecidableEq

/-- The Order Aggregate's storage: the three tables owned by
`OrderService`. -/
structure OrdersState where
  orders : List OrderRow
  orderItems : List OrderItemRow
  tracking : List TrackingRow
deriving Repr, DecidableEq

/-- Events published by `OrderEventPublisher`. -/
inductive OrderEvent where
  | created (orderId userId : String)
      (items : List (String × Int × Int)) (totalAmount : Int) (createdAt : Nat)
  | confirmedEv (orderId userId : String) (totalAmount : Int) (confirmedAt : Nat)
  | cancelledEv (orderId userId : String) (items : List (String × Int))
      (reason : String) (cancelledAt : Nat)
  | shippedEv (orderId userId : String)
      (trackingNumber carrier : Option String) (shippedAt : Nat)
deriving Repr, DecidableEq

/-- One line item of `OrderService.create`'s input. -/
structure CreateOrderItem where
  productId : String
  quantity : Int
  unitPrice : Int
deriving Repr, DecidableEq

/-- Input record of `OrderService.create`. -/
structure CreateOrderData where
  userId : String
  items : List CreateOrderItem
  shippingAddress : String
  billingAddress : Option String
  notes : Option String
deriving Repr, DecidableEq

/-- `db.query.orders.findFirst` on the id, joined `with items` — the body
of `OrderService.findById` (which throws 404 when the order is absent). -/
def findOrderById (st : OrdersState) (id : String) :
    Option (OrderRow × List OrderItemRow) :=
  match st.orders.find? (fun o => o.id == id) with
  | none => none
  | some o => some (o, st.orderItems.filter (fun it => it.orderId == id))

/-- The tracking rows of one order, as queried by
`checkAllInventoryReserved` and mutated by `markInventoryReserved`. -/
def trackingFor (st : OrdersState) (orderId : String) : List TrackingRow :=
  st.tracking.filter (fun t => t.orderId == orderId)

/-- `OrderService.create`: inside one transaction, insert the order
(status `pending`), every line item, and one tracking row per line item
with `inventoryReserved = false`; afterwards publish `order.created`.
The DB-generated id and the clock are explicit parameters. -/
def createOrder (st : OrdersState) (data : CreateOrderData) (newId : String)
    (now : Nat) : OrdersState × OrderEvent :=
  let totalAmount := data.items.foldl (fun s it => s + it.unitPrice * it.quantity) 0
  let order : OrderRow :=
    { id := newId, userId := data.userId, status := OrderStatus.pending,
      totalAmount := totalAmount, shippingAddress := data.shippingAddress,
      billingAddress := data.billingAddress, notes := data.notes,
      paymentId := none, transactionId := none,
      createdAt := now, updatedAt := now, cancelledAt := none }
  let newItems := data.items.map (fun it =>
    (⟨newId, it.productId, it.quantity, it.unitPrice⟩ : OrderItemRow))
  let newTracking := data.items.map (fun it =>
    (⟨newId, it.productId, false, now⟩ : TrackingRow))
  ({ orders := st.orders ++ [order],
     orderItems := st.orderItems ++ newItems,
     tracking := st.tracking ++ newTracking },
   OrderEvent.created newId data.userId
     (data.items.map (fun it => (it.productId, it.quantity, it.unitPrice)))
     totalAmount now)

/-- `OrderService.markInventoryReserved`: UPDATE the tracking rows of the
(order, product) pair to `inventoryReserved = true`, unconditionally. -/
def markInventoryReserved (st : OrdersState) (orderId productId : String)
    (now : Nat) : OrdersState :=
  { st with tracking := st.tracking.map (fun t =>
      if t.orderId == orderId && t.productId == productId then
        { t with inventoryReserved := true, updatedAt := now }
      else t) }

/-- `OrderService.checkAllInventoryReserved`: fetch the order's tracking
rows; zero rows yield `false`, otherwise every row must be reserved. -/
def checkAllInventoryReserved (st : OrdersState) (orderId : String) : Bool :=
  let trackingRecords := trackingFor st orderId
  if trackingRecords.length = 0 then false
  else trackingRecords.all (fun t => t.inventoryReserved)

/-- The notes rewrite of `cancelOrder`; the source's truthiness test
(`order.notes ? ... : ...`) treats an empty string like NULL. -/
def cancelNotes (notes : Option String) (reason : String) : String :=
  match notes with
  | some n =>
      if n == "" then "Cancellation reason: " ++ reason
      else n ++ "\nCancellation reason: " ++ reason
  | none => "Cancellation reason: " ++ reason

/-- `OrderService.cancelOrder`: fetch the order with its items (404 when
absent), UPDATE it to `cancelled` with stamped `cancelledAt` and the
reason appended to its notes, then publish `order.cancelled` carrying the
full line-item list. -/
def cancelOrder (st : OrdersState) (orderId reason : String) (now : Nat) :
    Except ServiceError (OrdersState × List OrderEvent) :=
  match findOrderById st orderId with
  | none => Except.error (ServiceError.notFound "Order" orderId)
  | some (ord, items) =>
      let st2 : OrdersState := { st with orders := st.orders.map (fun o =>
        if o.id == orderId then
          { o with status := OrderStatus.cancelled, cancelledAt := some now,
                   notes := some (cancelNotes ord.notes reason), updatedAt := now }
        else o) }
      Except.ok (st2,
        [OrderEvent.cancelledEv orderId ord.userId
          (items.map (fun it => (it.productId, it.quantity))) reason now])

/-- `OrderService.shipOrder`: UPDATE the order to `shipped` (404 only
when the row is absent — the current status is never consulted), then
publish `order.shipped`. -/
def shipOrder (st : OrdersState) (orderId : String)
    (trackingNumber carrier : Option String) (now : Nat) :
    Except ServiceError (OrdersState × List OrderEvent) :=
  match st.orders.find? (fun o => o.id == orderId) with
  | none => Except.error (ServiceError.notFound "Order" orderId)
  | some ord =>
      Except.ok
        ({ st with orders := st.orders.map (fun o =>
            if o.id == orderId then
              { o with status := OrderStatus.shipped, updatedAt := now }
            else o) },
         [OrderEvent.shippedEv orderId ord.userId trackingNumber carrier now])

/-- `OrderService.updateOrderStatus`: UPDATE the order to the given
status (any status, unguarded), copying `paymentId`/`transactionId` in
only when truthy; 404 only when the row is absent. -/
def updateOrderStatus (st : OrdersState) (orderId : String)
    (status : OrderStatus) (paymentId transactionId : Option String)
    (now : Nat) : Except ServiceError OrdersState :=
  match st.orders.find? (fun o => o.id == orderId) with
  | none => Except.error (ServiceError.notFound "Order" orderId)
  | some _ =>
      Except.ok { st with orders := st.orders.map (fun o =>
        if o.id == orderId then
          { o with status := status,
                   paymentId := match paymentId with
                     | some s => if s == "" then o.paymentId else some s
                     | none => o.paymentId,
                   transactionId := match transactionId with
                     | some s => if s == "" then o.transactionId else some s
                     | none => o.transactionId,
                   updatedAt := now }
        else o) }

/-- `OrderService.confirmOrder`: UPDATE the order to `confirmed`
(unguarded), then publish `order.confirmed`. -/
def confirmOrder (st : OrdersState) (orderId : String) (now : Nat) :
    Except ServiceError (OrdersState × List OrderEvent) :=
  match st.orders.find? (fun o => o.id == orderId) with
  | none => Except.error (ServiceError.notFound "Order" orderId)
  | some ord =>
      Except.ok
        ({ st with orders := st.orders.map (fun o =>
            if o.id == orderId then
              { o with status := OrderStatus.confirmed, updatedAt := now }
            else o) },
         [OrderEvent.confirmedEv orderId ord.userId ord.totalAmount now])

/-! ## Theorems -/

/-- Projection of a tracking row to its key and flag, ignoring the
`updatedAt` audit column. -/
def trackView (t : TrackingRow) : String × String × Bool :=
  (t.orderId, t.productId, t.inventoryReserved)

/-- Claim C10: `checkAllInventoryReserved` returns false for an order
with zero tracking rows; it reports an order fully reserved exactly when
it has at least one tracking row and every tracking row has
`inventoryReserved = true`. -/
theorem C10_check_not_vacuous (st : OrdersState) (orderId : String) :
    checkAllInventoryReserved st orderId
      = (!(trackingFor st orderId).isEmpty
          && (trackingFor st orderId).all (fun t => t.inventoryReserved)) := by
  unfold checkAllInventoryReserved
  cases h : trackingFor st orderId with
  | nil => simp
  | cons a l => simp

/-- Claim C7: applying `markInventoryReserved` twice for the same
(order, product) leaves the same tracking keys and flags as applying it
once, creates no rows, and every matching row's flag is true after one
application — redelivery never toggles the flag back or duplicates a
row. -/
theorem C7_mark_reserved_idempotent (st : OrdersState) (o p : String) (n1 n2 : Nat) :
    ((markInventoryReserved (markInventoryReserved st o p n1) o p n2).tracking.map trackView
      = (markInventoryReserved st o p n1).tracking.map trackView)
    ∧ (markInventoryReserved st o p n1).tracking.length = st.tracking.length
    ∧ ∀ t ∈ (markInventoryReserved st o p n1).tracking,
        t.orderId = o → t.productId = p → t.inventoryReserved = true := by
  refine ⟨?_, ?_, ?_⟩
  · simp only [markInventoryReserved, List.map_map]
    congr 1
    funext t
    by_cases h1 : t.orderId = o <;> by_cases h2 : t.productId = p <;>
      simp [trackView, h1, h2]
  · simp [markInventoryReserved]
  · intro t ht hto htp
    simp only [markInventoryReserved, List.mem_map] at ht
    obtain ⟨t0, _, rfl⟩ := ht
    by_cases h : (t0.orderId == o && t0.productId == p) = true
    · simp [h]
    · rw [if_neg h] at hto htp ⊢
      exact absurd (by simp [hto, htp]) h

/-- Example order state with a single unreserved tracking row. -/
def markSt1 : OrdersState := ⟨[], [], [⟨"o1", "p1", false, 0⟩]⟩

/-- Witness for C7 at a concrete tracking table. -/
theorem C7_witness :
    ((markInventoryReserved (markInventoryReserved markSt1 "o1" "p1" 1) "o1" "p1" 2).tracking.map
        trackView
      = (markInventoryReserved markSt1 "o1" "p1" 1).tracking.map trackView)
    ∧ (markInventoryReserved markSt1 "o1" "p1" 1).tracking.length = markSt1.tracking.length
    ∧ (⟨"o1", "p1", true, 1⟩ : TrackingRow).inventoryReserved = true :=
  ⟨(C7_mark_reserved_idempotent markSt1 "o1" "p1" 1 2).1,
   (C7_mark_reserved_idempotent markSt1 "o1" "p1" 1 2).2.1,
   (C7_mark_reserved_idempotent markSt1 "o1" "p1" 1 2).2.2 ⟨"o1", "p1", true, 1⟩
     (by decide) rfl rfl⟩

/-- Example order state holding a single already-cancelled order, used to
exercise the unguarded transition methods. -/
def shipSt1 : OrdersState :=
  ⟨[{ id := "o1", userId := "u1", status := OrderStatus.cancelled, totalAmount := 50,
      shippingAddress := "addr", billingAddress := none, notes := none,
      paymentId := none, transactionId := none, createdAt := 0, updatedAt := 0,
      cancelledAt := some 0 }], [], []⟩

/-- Claim C3 evaluated at its failing input: `shipOrder` on an order
whose status is `cancelled` silently succeeds, sets the status to
`shipped`, and publishes `order.shipped` — it does not fail, so the
transition table is not enforced. -/
theorem C3_ship_cancelled_succeeds :
    (shipOrder shipSt1 "o1" none none 5).map
        (fun r => (r.1.orders.map OrderRow.status, r.2))
      = Except.ok ([OrderStatus.shipped],
          [OrderEvent.shippedEv "o1" "u1" none none 5]) := by
  rfl

/-- Claim C8: when the (product, warehouse) pair has no inventory row,
`reserve` fails with `NotFoundError` and — the transaction rolling
back — leaves the ledger state unchanged, with no event emitted. -/
theorem C8_reserve_missing_row (st : LedgerState) (data : ReserveInventoryData)
    (now : Nat)
    (h : findInventory st.inventory data.productId data.warehouseId = none) :
    reserve st data now
      = Except.error (ServiceError.notFound "Inventory"
          (data.productId ++ ":" ++ data.warehouseId))
    ∧ applyOp st (LedgerOp.reserveOp data now) = st := by
  have h1 : reserve st data now
      = Except.error (ServiceError.notFound "Inventory"
          (data.productId ++ ":" ++ data.warehouseId)) := by
    unfold reserve
    rw [h]
  exact ⟨h1, by simp [applyOp, h1]⟩

/-- Witness for C8 at the empty ledger. -/
theorem C8_witness :
    reserve ⟨[], []⟩ ⟨"p1", "w1", 5, "o1"⟩ 0
      = Except.error (ServiceError.notFound "Inventory" ("p1" ++ ":" ++ "w1"))
    ∧ applyOp ⟨[], []⟩ (LedgerOp.reserveOp ⟨"p1", "w1", 5, "o1"⟩ 0) = ⟨[], []⟩ :=
  C8_reserve_missing_row ⟨[], []⟩ ⟨"p1", "w1", 5, "o1"⟩ 0 rfl

/-- Evaluation of `reserve` on the insufficient branch. -/
theorem reserve_eq_insufficient (st : LedgerState) (data : ReserveInventoryData)
    (now : Nat) (inv : InventoryRow)
    (hf : findInventory st.inventory data.productId data.warehouseId = some inv)
    (hlt : inv.quantity - pendingSum st.reservations data.productId data.warehouseId
            < data.quantity) :
    reserve st data now = Except.ok (st,
      [InvEvent.insufficient data.orderId data.productId data.warehouseId
        data.quantity
        (inv.quantity - pendingSum st.reservations data.productId data.warehouseId)
        ("Only " ++ toString (inv.quantity
            - pendingSum st.reservations data.productId data.warehouseId)
          ++ " units available, but " ++ toString data.quantity ++ " requested")]) := by
  simp [reserve, hf, hlt]

/-- Evaluation of `reserve` on the successful branch. -/
theorem reserve_eq_ok (st : LedgerState) (data : ReserveInventoryData)
    (now : Nat) (inv : InventoryRow)
    (hf : findInventory st.inventory data.productId data.warehouseId = some inv)
    (hge : ¬ inv.quantity - pendingSum st.reservations data.productId data.warehouseId
            < data.quantity) :
    reserve st data now = Except.ok
      ({ st with reservations := st.reservations ++
          [⟨data.orderId, data.productId, data.warehouseId,
            data.quantity, ResStatus.pending, now⟩] },
       [InvEvent.reserved data.orderId data.productId data.warehouseId data.quantity]) := by
  simp [reserve, hf, hge]

/-- Claim C2: when the inventory row exists, `reserve` is deterministic —
with sufficient availability it inserts exactly one pending reservation
of the requested quantity and emits exactly one `inventory.reserved`
event; otherwise it mutates nothing and emits exactly one
`inventory.insufficient` event carrying the requested and the true
available quantity. -/
theorem C2_reserve_deterministic (st : LedgerState) (data : ReserveInventoryData)
    (now : Nat) (inv : InventoryRow)
    (hf : findInventory st.inventory data.productId data.warehouseId = some inv) :
    (data.quantity ≤ inv.quantity
        - pendingSum st.reservations data.productId data.warehouseId →
      reserve st data now = Except.ok
        ({ st with reservations := st.reservations ++
            [⟨data.orderId, data.productId, data.warehouseId,
              data.quantity, ResStatus.pending, now⟩] },
         [InvEvent.reserved data.orderId data.productId data.warehouseId data.quantity]))
    ∧ (inv.quantity - pendingSum st.reservations data.productId data.warehouseId
          < data.quantity →
      reserve st data now = Except.ok (st,
        [InvEvent.insufficient data.orderId data.productId data.warehouseId
          data.quantity
          (inv.quantity - pendingSum st.reservations data.productId data.warehouseId)
          ("Only " ++ toString (inv.quantity
              - pendingSum st.reservations data.productId data.warehouseId)
            ++ " units available, but " ++ toString data.quantity ++ " requested")])) :=
  ⟨fun hle => reserve_eq_ok st data now inv hf (not_lt.mpr hle),
   fun hlt => reserve_eq_insufficient st data now inv hf hlt⟩

/-- Example ledger with one inventory row of quantity 10 and no
reservations. -/
def invSt1 : LedgerState := ⟨[⟨"p1", "w1", 10, 0⟩], []⟩

/-- Witness for C2 at a concrete ledger, on both branches. -/
theorem C2_witness :
    reserve invSt1 ⟨"p1", "w1", 5, "o1"⟩ 7
      = Except.ok ({ invSt1 with reservations :=
            [⟨"o1", "p1", "w1", 5, ResStatus.pending, 7⟩] },
          [InvEvent.reserved "o1" "p1" "w1" 5])
    ∧ reserve invSt1 ⟨"p1", "w1", 11, "o1"⟩ 7
      = Except.ok (invSt1,
          [InvEvent.insufficient "o1" "p1" "w1" 11 10
            ("Only " ++ toString (10 : Int) ++ " units available, but "
              ++ toString (11 : Int) ++ " requested")]) :=
  ⟨(C2_reserve_deterministic invSt1 ⟨"p1", "w1", 5, "o1"⟩ 7 ⟨"p1", "w1", 10, 0⟩ rfl).1
      (by decide),
   (C2_reserve_deterministic invSt1 ⟨"p1", "w1", 11, "o1"⟩ 7 ⟨"p1", "w1", 10, 0⟩ rfl).2
      (by decide)⟩

/-- The flipped row of a `release` never matches the pending filter
again: either it was flipped to `released`, or it was not pending for the
pair to begin with. -/
theorem releaseFlip_not_pending (o p : String) (n : Nat) (r : ReservationRow) :
    isPendingOrderProduct o p (releaseFlip o p n r) = false := by
  unfold releaseFlip
  by_cases h : isPendingOrderProduct o p r
  · rw [if_pos h]
    simp [isPendingOrderProduct]
  · rw [if_neg h]
    simpa using h

/-- After a `release`, no pending reservations remain for the
(order, product) pair. -/
theorem release_clears_pending (st : LedgerState) (o p : String) (n : Nat) :
    (release st o p n).reservations.filter (isPendingOrderProduct o p) = [] := by
  unfold release
  by_cases h : (st.reservations.filter (isPendingOrderProduct o p)).length = 0
  · rw [if_pos h]
    exact List.length_eq_zero.mp h
  · rw [if_neg h]
    rw [List.filter_eq_nil_iff]
    intro a ha
    rw [List.mem_map] at ha
    obtain ⟨r, _, rfl⟩ := ha
    simp [releaseFlip_not_pending]

/-- `release` with no matching pending reservations is the identity on
the ledger state — the source's early return. -/
theorem release_no_pending (st : LedgerState) (o p : String) (n : Nat)
    (h : st.reservations.filter (isPendingOrderProduct o p) = []) :
    release st o p n = st := by
  unfold release
  rw [h]
  rfl

/-- Claim C4: `release` is idempotent — releasing the same
(order, product) pair twice yields exactly the final state of releasing
it once, and releasing a pair with no pending reservations is a no-op
that neither mutates state nor raises an error. -/
theorem C4_release_idempotent :
    (∀ (st : LedgerState) (o p : String) (n1 n2 : Nat),
      release (release st o p n1) o p n2 = release st o p n1)
    ∧ (∀ (st : LedgerState) (o p : String) (n : Nat),
      st.reservations.filter (isPendingOrderProduct o p) = [] →
        release st o p n = st) :=
  ⟨fun st o p n1 n2 =>
    release_no_pending (release st o p n1) o p n2 (release_clears_pending st o p n1),
   fun st o p n h => release_no_pending st o p n h⟩

/-- Example ledger with one pending reservation for order o1. -/
def relSt1 : LedgerState :=
  ⟨[⟨"p1", "w1", 10, 0⟩], [⟨"o1", "p1", "w1", 4, ResStatus.pending, 0⟩]⟩

/-- Witness for C4 at a concrete ledger. -/
theorem C4_witness :
    release (release relSt1 "o1" "p1" 1) "o1" "p1" 2 = release relSt1 "o1" "p1" 1
    ∧ release ⟨[], []⟩ "o1" "p1" 3 = (⟨[], []⟩ : LedgerState) :=
  ⟨C4_release_idempotent.1 relSt1 "o1" "p1" 1 2,
   C4_release_idempotent.2 ⟨[], []⟩ "o1" "p1" 3 rfl⟩

/-- The batch fold carries its mutation counter: starting from `k` it
ends at `k` plus the batch length, alongside the plain fold of the
upserts. -/
theorem batch_foldl_count (updates : List BatchUpdateData) (now : Nat)
    (k : Nat) (st : LedgerState) :
    updates.foldl
        (fun acc u => (acc.1 + 1, updateStock acc.2 u.productId u.warehouseId u.quantity now))
        (k, st)
      = (k + updates.length,
         updates.foldl
           (fun acc u => updateStock acc u.productId u.warehouseId u.quantity now) st) := by
  induction updates generalizing k st with
  | nil => simp
  | cons u rest ih =>
    simp only [List.foldl_cons, List.length_cons, ih]
    rw [Prod.mk.injEq]
    exact ⟨by omega, rfl⟩

/-- Claim C9: `batchUpdate` rejects an empty or oversized list with a
`ValidationError` and mutates nothing; otherwise, inside one transaction,
it upserts every entry in order and returns the count of entries mutated,
which equals the batch length. -/
theorem C9_batchUpdate_bounds (st : LedgerState) (updates : List BatchUpdateData)
    (now : Nat) :
    ((updates.length = 0 ∨ updates.length > 1000) →
      batchUpdate st updates now
        = Except.error (ServiceError.validation "Batch size must be between 1 and 1000"))
    ∧ (1 ≤ updates.length → updates.length ≤ 1000 →
      batchUpdate st updates now
        = Except.ok (updates.length,
            updates.foldl
              (fun acc u => updateStock acc u.productId u.warehouseId u.quantity now) st)) := by
  constructor
  · intro h
    have hc : (updates.length = 0 ∨ updates.length > 1000) := h
    unfold batchUpdate
    rw [if_pos]
    rcases hc with hc | hc <;> simp [hc]
  · intro h1 h2
    have hc : ¬((updates.length = 0 || updates.length > 1000) = true) := by
      simp only [Bool.or_eq_true, decide_eq_true_eq, not_or]
      omega
    unfold batchUpdate
    rw [if_neg hc]
    rw [batch_foldl_count]
    simp

/-- Witness for C9: the empty batch is rejected, a singleton batch
upserts its entry and reports one mutation. -/
theorem C9_witness :
    batchUpdate ⟨[], []⟩ [] 0
      = Except.error (ServiceError.validation "Batch size must be between 1 and 1000")
    ∧ batchUpdate ⟨[], []⟩ [⟨"p1", "w1", 7⟩] 0
      = Except.ok (1, updateStock ⟨[], []⟩ "p1" "w1" 7 0) :=
  ⟨(C9_batchUpdate_bounds ⟨[], []⟩ [] 0).1 (Or.inl rfl),
   (C9_batchUpdate_bounds ⟨[], []⟩ [⟨"p1", "w1", 7⟩] 0).2 (by decide) (by decide)⟩

/-- Claim C6: a successful `create` with N line items leaves exactly N
tracking rows for the new order — one per line item, in order, each with
`inventoryReserved = false` — created in the same transaction as the
order and its items. -/
theorem C6_create_tracking (st : OrdersState) (data : CreateOrderData)
    (newId : String) (now : Nat)
    (hfresh : trackingFor st newId = []) :
    trackingFor (createOrder st data newId now).1 newId
      = data.items.map (fun it => (⟨newId, it.productId, false, now⟩ : TrackingRow))
    ∧ (trackingFor (createOrder st data newId now).1 newId).length
        = data.items.length
    ∧ ∀ t ∈ trackingFor (createOrder st data newId now).1 newId,
        t.inventoryReserved = false := by
  have htr : (createOrder st data newId now).1.tracking
      = st.tracking
        ++ data.items.map (fun it => (⟨newId, it.productId, false, now⟩ : TrackingRow)) := rfl
  have key : trackingFor (createOrder st data newId now).1 newId
      = data.items.map (fun it => (⟨newId, it.productId, false, now⟩ : TrackingRow)) := by
    unfold trackingFor at hfresh ⊢
    rw [htr, List.filter_append, hfresh, List.nil_append, List.filter_eq_self]
    intro a ha
    rw [List.mem_map] at ha
    obtain ⟨it, _, rfl⟩ := ha
    simp
  refine ⟨key, ?_, ?_⟩
  · rw [key, List.length_map]
  · intro t ht
    rw [key, List.mem_map] at ht
    obtain ⟨it, _, rfl⟩ := ht
    rfl

/-- Example input of `create` with two line items. -/
def createData1 : CreateOrderData :=
  ⟨"u1", [⟨"p1", 3, 100⟩, ⟨"p2", 5, 200⟩], "addr", none, none⟩

/-- Witness for C6: creating a two-item order in an empty store yields
exactly two unreserved tracking rows. -/
theorem C6_witness :
    trackingFor (createOrder ⟨[], [], []⟩ createData1 "o1" 4).1 "o1"
      = [⟨"o1", "p1", false, 4⟩, ⟨"o1", "p2", false, 4⟩]
    ∧ (trackingFor (createOrder ⟨[], [], []⟩ createData1 "o1" 4).1 "o1").length
        = createData1.items.length
    ∧ ∀ t ∈ trackingFor (createOrder ⟨[], [], []⟩ createData1 "o1" 4).1 "o1",
        t.inventoryReserved = false := by
  have h := C6_create_tracking ⟨[], [], []⟩ createData1 "o1" 4 rfl
  exact ⟨h.1, h.2.1, h.2.2⟩

/-- `find?` on an id commutes with mapping an id-preserving row
transformation over the table. -/
theorem find_map_preserving (l : List OrderRow) (id : String)
    (f : OrderRow → OrderRow) (hf : ∀ o, (f o).id = o.id) :
    (l.map f).find? (fun o => o.id == id) = (l.find? (fun o => o.id == id)).map f := by
  induction l with
  | nil => rfl
  | cons a l ih =>
    by_cases h : (a.id == id) = true
    · rw [List.map_cons,
        @List.find?_cons_of_pos OrderRow (fun o => o.id == id) (f a) (l.map f)
          (by show ((f a).id == id) = true; rw [hf a]; exact h),
        @List.find?_cons_of_pos OrderRow (fun o => o.id == id) a l h]
      rfl
    · rw [List.map_cons,
        @List.find?_cons_of_neg OrderRow (fun o => o.id == id) (f a) (l.map f)
          (by show ¬((f a).id == id) = true; rw [hf a]; exact h),
        @List.find?_cons_of_neg OrderRow (fun o => o.id == id) a l h]
      exact ih

/-- `findOrderById` after mapping an id-preserving transformation over
the orders table. -/
theorem findOrderById_map_orders (st : OrdersState) (id : String)
    (f : OrderRow → OrderRow) (hf : ∀ o, (f o).id = o.id) :
    findOrderById { st with orders := st.orders.map f } id
      = (st.orders.find? (fun o => o.id == id)).map
          (fun o => (f o, st.orderItems.filter (fun it => it.orderId == id))) := by
  show (match (st.orders.map f).find? (fun o => o.id == id) with
    | none => none
    | some o => some (o, st.orderItems.filter (fun (it : OrderItemRow) => it.orderId == id)))
    = (st.orders.find? (fun o => o.id == id)).map
        (fun o => (f o, st.orderItems.filter (fun (it : OrderItemRow) => it.orderId == id)))
  rw [find_map_preserving st.orders id f hf]
  cases st.orders.find? (fun o => o.id == id) <;> rfl

/-- Claim C5: `cancelOrder` on an existing order sets its status to
`cancelled`, appends the cancellation reason to its notes, stamps
`cancelledAt`, leaves its line items untouched, and publishes exactly one
`order.cancelled` event carrying the full original line-item list. -/
theorem C5_cancelOrder (st : OrdersState) (orderId reason : String) (now : Nat)
    (ord : OrderRow) (items : List OrderItemRow)
    (hfind : findOrderById st orderId = some (ord, items)) :
    ∃ st2, cancelOrder st orderId reason now
        = Except.ok (st2,
            [OrderEvent.cancelledEv orderId ord.userId
              (items.map (fun it => (it.productId, it.quantity))) reason now])
      ∧ findOrderById st2 orderId
          = some ({ ord with
                    status := OrderStatus.cancelled,
                    cancelledAt := some now,
                    notes := some (cancelNotes ord.notes reason),
                    updatedAt := now }, items) := by
  have hsplit : st.orders.find? (fun o => o.id == orderId) = some ord
      ∧ st.orderItems.filter (fun it => it.orderId == orderId) = items := by
    unfold findOrderById at hfind
    cases hcase : st.orders.find? (fun o => o.id == orderId) with
    | none => rw [hcase] at hfind; exact absurd hfind (by simp)
    | some o =>
        rw [hcase] at hfind
        simp only [Option.some.injEq, Prod.mk.injEq] at hfind
        exact ⟨by rw [hfind.1], hfind.2⟩
  have hpred : (ord.id == orderId) = true := by
    have h2 := List.find?_some hsplit.1
    exact h2
  have hid : ∀ o : OrderRow, ((fun o => if o.id == orderId then
      { o with status := OrderStatus.cancelled, cancelledAt := some now,
               notes := some (cancelNotes ord.notes reason), updatedAt := now }
      else o) o).id = o.id := by
    intro o
    by_cases h : (o.id == orderId) = true
    · simp [h]
    · simp [h]
  refine ⟨{ st with orders := st.orders.map (fun o => if o.id == orderId then
      { o with status := OrderStatus.cancelled, cancelledAt := some now,
               notes := some (cancelNotes ord.notes reason), updatedAt := now }
      else o) }, ?_, ?_⟩
  · unfold cancelOrder
    rw [hfind]
  · rw [findOrderById_map_orders st orderId _ hid, hsplit.1]
    simp only [Option.map_some']
    rw [if_pos hpred, hsplit.2]

/-- Example order state with one pending order having one line item. -/
def cancelSt1 : OrdersState :=
  ⟨[{ id := "o1", userId := "u1", status := OrderStatus.pending, totalAmount := 300,
      shippingAddress := "addr", billingAddress := none, notes := some "gift wrap",
      paymentId := none, transactionId := none, createdAt := 0, updatedAt := 0,
      cancelledAt := none }],
   [⟨"o1", "p1", 3, 100⟩], [⟨"o1", "p1", false, 0⟩]⟩

/-- Witness for C5 at a concrete order. -/
theorem C5_witness :
    ∃ st2, cancelOrder cancelSt1 "o1" "out of stock" 9
        = Except.ok (st2,
            [OrderEvent.cancelledEv "o1" "u1" [("p1", 3)] "out of stock" 9])
      ∧ findOrderById st2 "o1"
          = some ({ id := "o1", userId := "u1", status := OrderStatus.cancelled,
                    totalAmount := 300, shippingAddress := "addr",
                    billingAddress := none,
                    notes := some ("gift wrap" ++ "\nCancellation reason: "
                      ++ "out of stock"),
                    paymentId := none, transactionId := none, createdAt := 0,
                    updatedAt := 9, cancelledAt := some 9 },
                  [⟨"o1", "p1", 3, 100⟩]) := by
  have h := C5_cancelOrder cancelSt1 "o1" "out of stock" 9
    { id := "o1", userId := "u1", status := OrderStatus.pending, totalAmount := 300,
      shippingAddress := "addr", billingAddress := none, notes := some "gift wrap",
      paymentId := none, transactionId := none, createdAt := 0, updatedAt := 0,
      cancelledAt := none }
    [⟨"o1", "p1", 3, 100⟩] rfl
  exact h

/-! ## No-oversell invariant (C1) -/

theorem pendingSum_nil (p w : String) : pendingSum [] p w = 0 := rfl

theorem pendingSum_cons (r : ReservationRow) (rs : List ReservationRow) (p w : String) :
    pendingSum (r :: rs) p w
      = (if isPendingFor p w r then r.quantity else 0) + pendingSum rs p w := by
  unfold pendingSum
  by_cases h : isPendingFor p w r
  · simp [List.filter_cons, h]
  · simp [List.filter_cons, h]

theorem pendingSum_append (rs ts : List ReservationRow) (p w : String) :
    pendingSum (rs ++ ts) p w = pendingSum rs p w + pendingSum ts p w := by
  unfold pendingSum
  simp [List.filter_append]

/-- Flipping some rows to `released` can only shrink the pending sum,
provided every reservation quantity is nonnegative. -/
theorem pendingSum_releaseFlip_le (rs : List ReservationRow) (o p : String)
    (n : Nat) (pq pw : String)
    (h : ∀ r ∈ rs, 0 ≤ r.quantity) :
    pendingSum (rs.map (releaseFlip o p n)) pq pw ≤ pendingSum rs pq pw := by
  induction rs with
  | nil => simp [pendingSum_nil]
  | cons r rest ih =>
    rw [List.map_cons, pendingSum_cons, pendingSum_cons]
    have hr : 0 ≤ r.quantity := h r (List.mem_cons_self r rest)
    have hrest := ih (fun x hx => h x (List.mem_cons_of_mem r hx))
    have hhead : (if isPendingFor pq pw (releaseFlip o p n r)
          then (releaseFlip o p n r).quantity else 0)
        ≤ (if isPendingFor pq pw r then r.quantity else 0) := by
      unfold releaseFlip
      by_cases hm : isPendingOrderProduct o p r
      · rw [if_pos hm]
        have hfalse : isPendingFor pq pw
            { r with status := ResStatus.released, updatedAt := n } = false := by
          simp [isPendingFor]
        simp only [hfalse, Bool.false_eq_true, if_false]
        by_cases hp2 : isPendingFor pq pw r
        · rw [if_pos hp2]
          exact hr
        · rw [if_neg hp2]
      · rw [if_neg hm]
    exact add_le_add hhead hrest

/-- With a unique (product, warehouse) key, any member matching the key
of a successful `findInventory` is the found row itself. -/
theorem findInventory_unique (rows : List InventoryRow) (p w : String)
    (inv r2 : InventoryRow)
    (hu : keysUniqueB rows = true)
    (hfind : findInventory rows p w = some inv)
    (hmem : r2 ∈ rows) (hp : r2.productId = p) (hw : r2.warehouseId = w) :
    r2 = inv := by
  induction rows with
  | nil => cases hmem
  | cons a rest ih =>
    rw [keysUniqueB, Bool.and_eq_true] at hu
    have hall : ∀ x ∈ rest,
        x.productId = a.productId → x.warehouseId = a.warehouseId → False := by
      intro x hx h1 h2
      have h3 := (List.all_eq_true.mp hu.1) x hx
      simp [h1, h2] at h3
    unfold findInventory at hfind ih
    by_cases ha : (a.productId == p && a.warehouseId == w) = true
    · rw [@List.find?_cons_of_pos InventoryRow
        (fun r => r.productId == p && r.warehouseId == w) a rest ha] at hfind
      have hainv : a = inv := by simpa using hfind
      rcases List.mem_cons.mp hmem with h1 | h1
      · rw [h1, hainv]
      · exfalso
        rw [Bool.and_eq_true, beq_iff_eq, beq_iff_eq] at ha
        exact hall r2 h1 (by rw [hp, ha.1]) (by rw [hw, ha.2])
    · rw [@List.find?_cons_of_neg InventoryRow
        (fun r => r.productId == p && r.warehouseId == w) a rest ha] at hfind
      rcases List.mem_cons.mp hmem with h1 | h1
      · exfalso
        apply ha
        rw [Bool.and_eq_true, beq_iff_eq, beq_iff_eq]
        exact ⟨by rw [← h1]; exact hp, by rw [← h1]; exact hw⟩
      · exact ih hu.2 hfind h1

/-- A successful `findInventory` returns a row whose key is the searched
(product, warehouse) pair. -/
theorem findInventory_key (rows : List InventoryRow) (p w : String)
    (inv : InventoryRow)
    (hfind : findInventory rows p w = some inv) :
    inv.productId = p ∧ inv.warehouseId = w := by
  have h2 := List.find?_some hfind
  simp only [Bool.and_eq_true, beq_iff_eq] at h2
  exact h2

/-- One `reserve` of nonnegative quantity preserves key uniqueness,
quantity nonnegativity, and the no-oversell bound. -/
theorem reserve_step (st : LedgerState) (data : ReserveInventoryData) (now : Nat)
    (hq : 0 ≤ data.quantity)
    (hu : keysUniqueB st.inventory = true)
    (hn : ∀ r ∈ st.reservations, 0 ≤ r.quantity)
    (hinv : ∀ r ∈ st.inventory,
      pendingSum st.reservations r.productId r.warehouseId ≤ r.quantity) :
    keysUniqueB (applyOp st (LedgerOp.reserveOp data now)).inventory = true
    ∧ (∀ r ∈ (applyOp st (LedgerOp.reserveOp data now)).reservations, 0 ≤ r.quantity)
    ∧ ∀ r ∈ (applyOp st (LedgerOp.reserveOp data now)).inventory,
        pendingSum (applyOp st (LedgerOp.reserveOp data now)).reservations
          r.productId r.warehouseId ≤ r.quantity := by
  cases hf : findInventory st.inventory data.productId data.warehouseId with
  | none =>
      have heq : applyOp st (LedgerOp.reserveOp data now) = st := by
        have h1 : reserve st data now
            = Except.error (ServiceError.notFound "Inventory"
                (data.productId ++ ":" ++ data.warehouseId)) := by
          unfold reserve
          rw [hf]
        simp [applyOp, h1]
      rw [heq]
      exact ⟨hu, hn, hinv⟩
  | some inv =>
      by_cases hlt : inv.quantity
          - pendingSum st.reservations data.productId data.warehouseId < data.quantity
      · have heq : applyOp st (LedgerOp.reserveOp data now) = st := by
          simp [applyOp, reserve_eq_insufficient st data now inv hf hlt]
        rw [heq]
        exact ⟨hu, hn, hinv⟩
      · have heq : applyOp st (LedgerOp.reserveOp data now)
            = { st with reservations := st.reservations ++
                [⟨data.orderId, data.productId, data.warehouseId,
                  data.quantity, ResStatus.pending, now⟩] } := by
          simp [applyOp, reserve_eq_ok st data now inv hf hlt]
        rw [heq]
        refine ⟨hu, ?_, ?_⟩
        · intro r hr
          rcases List.mem_append.mp hr with h1 | h1
          · exact hn r h1
          · rcases List.mem_singleton.mp h1 with rfl
            exact hq
        · intro r hr
          rw [pendingSum_append, pendingSum_cons, pendingSum_nil, add_zero]
          by_cases hmatch : isPendingFor r.productId r.warehouseId
              (⟨data.orderId, data.productId, data.warehouseId,
                data.quantity, ResStatus.pending, now⟩ : ReservationRow) = true
          · have hkeys : r.productId = data.productId ∧ r.warehouseId = data.warehouseId := by
              simp only [isPendingFor, Bool.and_eq_true, beq_iff_eq] at hmatch
              exact ⟨hmatch.1.1.symm, hmatch.1.2.symm⟩
            have hrinv : r = inv :=
              findInventory_unique st.inventory data.productId data.warehouseId
                inv r hu hf hr hkeys.1 hkeys.2
            have hd : (⟨data.orderId, data.productId, data.warehouseId,
                data.quantity, ResStatus.pending, now⟩ : ReservationRow).quantity
                = data.quantity := rfl
            rw [if_pos hmatch, hkeys.1, hkeys.2, hrinv, hd]
            omega
          · rw [if_neg (by simpa using hmatch), add_zero]
            exact hinv r hr

/-- One `release` preserves key uniqueness, quantity nonnegativity, and
the no-oversell bound. -/
theorem release_step (st : LedgerState) (o p : String) (now : Nat)
    (hu : keysUniqueB st.inventory = true)
    (hn : ∀ r ∈ st.reservations, 0 ≤ r.quantity)
    (hinv : ∀ r ∈ st.inventory,
      pendingSum st.reservations r.productId r.warehouseId ≤ r.quantity) :
    keysUniqueB (release st o p now).inventory = true
    ∧ (∀ r ∈ (release st o p now).reservations, 0 ≤ r.quantity)
    ∧ ∀ r ∈ (release st o p now).inventory,
        pendingSum (release st o p now).reservations
          r.productId r.warehouseId ≤ r.quantity := by
  unfold release
  by_cases h : (st.reservations.filter (isPendingOrderProduct o p)).length = 0
  · rw [if_pos h]
    exact ⟨hu, hn, hinv⟩
  · rw [if_neg h]
    refine ⟨hu, ?_, ?_⟩
    · intro r hr
      rcases List.mem_map.mp hr with ⟨r0, hr0, rfl⟩
      have h0 := hn r0 hr0
      unfold releaseFlip
      by_cases hm : isPendingOrderProduct o p r0
      · rw [if_pos hm]; exact h0
      · rw [if_neg hm]; exact h0
    · intro r hr
      calc pendingSum (st.reservations.map (releaseFlip o p now))
            r.productId r.warehouseId
          ≤ pendingSum st.reservations r.productId r.warehouseId :=
            pendingSum_releaseFlip_le st.reservations o p now _ _ hn
        _ ≤ r.quantity := hinv r hr

/-- A sequence of reserve/release operations preserves the ledger
invariants. -/
theorem ops_preserve (ops : List LedgerOp) (st : LedgerState)
    (hops : ops.all reserveOrRelease = true)
    (hu : keysUniqueB st.inventory = true)
    (hn : ∀ r ∈ st.reservations, 0 ≤ r.quantity)
    (hinv : ∀ r ∈ st.inventory,
      pendingSum st.reservations r.productId r.warehouseId ≤ r.quantity) :
    keysUniqueB (applyOps st ops).inventory = true
    ∧ (∀ r ∈ (applyOps st ops).reservations, 0 ≤ r.quantity)
    ∧ ∀ r ∈ (applyOps st ops).inventory,
        pendingSum (applyOps st ops).reservations
          r.productId r.warehouseId ≤ r.quantity := by
  induction ops generalizing st with
  | nil => exact ⟨hu, hn, hinv⟩
  | cons op rest ih =>
    rw [List.all_cons, Bool.and_eq_true] at hops
    have hstep : applyOps st (op :: rest) = applyOps (applyOp st op) rest := rfl
    rw [hstep]
    cases op with
    | reserveOp data n =>
        have hq : 0 ≤ data.quantity := by
          have := hops.1
          simpa [reserveOrRelease] using this
        obtain ⟨h1, h2, h3⟩ := reserve_step st data n hq hu hn hinv
        exact ih (applyOp st (LedgerOp.reserveOp data n)) hops.2 h1 h2 h3
    | releaseOp o p n =>
        have hrel : applyOp st (LedgerOp.releaseOp o p n) = release st o p n := rfl
        obtain ⟨h1, h2, h3⟩ := release_step st o p n hu hn hinv
        rw [← hrel] at h1 h2 h3
        exact ih (applyOp st (LedgerOp.releaseOp o p n)) hops.2 h1 h2 h3
    | updateOp p w q n =>
        exact absurd hops.1 (by simp [reserveOrRelease])

theorem noOversell_iff (st : LedgerState) :
    noOversell st = true
      ↔ ∀ r ∈ st.inventory,
          pendingSum st.reservations r.productId r.warehouseId ≤ r.quantity := by
  unfold noOversell
  rw [List.all_eq_true]
  constructor
  · intro h r hr
    exact of_decide_eq_true (h r hr)
  · intro h r hr
    exact decide_eq_true (h r hr)

theorem pendingNonneg_iff (st : LedgerState) :
    pendingNonneg st = true ↔ ∀ r ∈ st.reservations, 0 ≤ r.quantity := by
  unfold pendingNonneg
  rw [List.all_eq_true]
  constructor
  · intro h r hr
    exact of_decide_eq_true (h r hr)
  · intro h r hr
    exact decide_eq_true (h r hr)

/-- Claim C1 (amended): over sequences of `Reserve` operations with
nonnegative requested quantities and `Release` operations — direct stock
updates excluded, since `update`/`batchUpdate` overwrite the on-hand
quantity unconditionally — the Inventory Ledger preserves the no-oversell
bound: for every (product, warehouse) inventory row, the sum of pending
reservation quantities never exceeds the quantity on hand. -/
theorem C1_no_oversell_reserve_release (ops : List LedgerOp) (st : LedgerState)
    (hops : ops.all reserveOrRelease = true)
    (hu : keysUniqueB st.inventory = true)
    (hn : pendingNonneg st = true)
    (hinv : noOversell st = true) :
    noOversell (applyOps st ops) = true := by
  rw [noOversell_iff]
  exact (ops_preserve ops st hops hu ((pendingNonneg_iff st).mp hn)
    ((noOversell_iff st).mp hinv)).2.2

/-- Witness for the amended C1 on a concrete reserve-then-release
trace. -/
theorem C1_witness :
    noOversell (applyOps ⟨[⟨"p1", "w1", 10, 0⟩], []⟩
      [LedgerOp.reserveOp ⟨"p1", "w1", 5, "o1"⟩ 1,
       LedgerOp.releaseOp "o1" "p1" 2]) = true :=
  C1_no_oversell_reserve_release
    [LedgerOp.reserveOp ⟨"p1", "w1", 5, "o1"⟩ 1, LedgerOp.releaseOp "o1" "p1" 2]
    ⟨[⟨"p1", "w1", 10, 0⟩], []⟩ (by decide) (by decide) (by decide) (by decide)

/-- A trace refuting C1 as stated: stock is set to 10, five units are
reserved, then a stock update lowers the on-hand quantity to 3 while the
pending reservation of 5 stands. -/
def c1ops : List LedgerOp :=
  [LedgerOp.updateOp "p1" "w1" 10 0,
   LedgerOp.reserveOp ⟨"p1", "w1", 5, "o1"⟩ 1,
   LedgerOp.updateOp "p1" "w1" 3 2]

/-- Counterexample to C1 as stated: after the `c1ops` sequence of
Reserve and stock-update operations the pending sum (5) exceeds the
on-hand quantity (3), so the invariant does not hold over sequences that
include stock updates. -/
theorem C1_counterexample :
    noOversell (applyOps ⟨[], []⟩ c1ops) = false
    ∧ pendingSum (applyOps ⟨[], []⟩ c1ops).reservations "p1" "w1" = 5
    ∧ findInventory (applyOps ⟨[], []⟩ c1ops).inventory "p1" "w1"
        = some ⟨"p1", "w1", 3, 2⟩ := by
  refine ⟨?_, ?_, ?_⟩ <;> rfl

end OMS
